import Mathlib

/-!
Shallow embedding of `src/torchaudio/compliance/kaldi.py` (Kaldi-compatible
audio feature extraction and resampling), together with theorems settling the
frozen claims about it.

Modelling conventions:
* Python/torch floating point scalars are modelled as real numbers (`ℝ`).
* Configuration scalars that only enter integer/validation arithmetic
  (sample frequency, frame lengths, durations) are modelled as rationals
  (`ℚ`) so that the control flow of the embedded functions is computable.
* Tensors are modelled as `List ℝ` / `List (List ℝ)` where the list
  structure matters (framing), and as total functions `ℕ → ℕ → ℝ` together
  with explicit row/column counts elsewhere.
* `assert` statements in the source are modelled by `Except String`
  results: a failing assert becomes `.error msg`.
* External collaborators (the FFT primitive, the random generator used for
  dithering, and the orthonormal DCT-II basis generator) are parameters,
  bundled in the `Externs` structure.
-/

namespace Kaldi

/-- External collaborators of the feature pipeline: the real-to-half-spectrum
FFT (complex outputs as pairs), the uniform random source used by dithering
(indexed by frame and sample), and the orthonormal DCT-II basis generator
(size, row, column). -/
structure Externs where
  rfft : List ℝ → List (ℝ × ℝ)
  rand : ℕ → ℕ → ℝ
  createDct : ℕ → ℕ → ℕ → ℝ

/-- Working floating dtypes that appear in the source (`waveform.dtype`). -/
inductive Dtype
  | float32
  | float64
deriving DecidableEq

/-- The module-level constant `EPSILON = torch.finfo(torch.float).eps`,
i.e. `numeric_limits<float>::epsilon() = 1.1920928955078125e-07 = 2⁻²³`. -/
noncomputable def EPSILON : ℝ := 1 / 8388608

/-- Embedding of `_get_epsilon(device, dtype)`: the constant `EPSILON` cast to
the working dtype.  The cast preserves the value (2⁻²³ is exactly
representable in both float32 and float64), so the result does not depend on
the dtype. -/
noncomputable def _get_epsilon (_d : Dtype) : ℝ := EPSILON

/-- Modelled from the spec: "`epsilon` is the smallest representable positive
increment for the working floating type" — the machine epsilon of the working
dtype (float32: 2⁻²³, float64: 2⁻⁵²).  This definition follows the spec
wording and is compared against the source's `_get_epsilon`. -/
noncomputable def machineEpsSpec : Dtype → ℝ
  | .float32 => 1 / 8388608
  | .float64 => 1 / 4503599627370496

/-- Python `int()` truncation toward zero, on rationals. -/
def truncQ (r : ℚ) : ℤ := if 0 ≤ r then ⌊r⌋ else ⌈r⌉

/-- Embedding of `_next_power_of_2(x)`: `1 if x == 0 else 2 ** (x - 1).bit_length()`.
Python's `bit_length` is on the absolute value, matching `Int.natAbs` with
`Nat.size`. -/
def _next_power_of_2 (x : ℤ) : ℤ := if x = 0 then 1 else 2 ^ Nat.size (x - 1).natAbs

/-- Embedding of the waveform extension built by `_get_strided` when
`snip_edges=False`: with `pad = window_size // 2 - window_shift // 2` and
`reversed_waveform = flip(waveform)`, if `pad > 0` prepend the last `pad`
entries of the reversed waveform and append the whole reversed waveform;
otherwise drop `-pad` entries from the front and append the reversed
waveform. -/
def extendedWaveform (w : List ℝ) (window_size window_shift : ℕ) : List ℝ :=
  let rev := w.reverse
  let pad : ℤ := (window_size / 2 : ℕ) - (window_shift / 2 : ℕ)
  if 0 < pad then (rev.drop (rev.length - pad.toNat)) ++ w ++ rev
  else (w.drop (-pad).toNat) ++ rev

/-- The signed padding `pad = window_size // 2 - window_shift // 2` of
`_get_strided` with `snip_edges=False`. -/
def framePad (window_size window_shift : ℕ) : ℤ :=
  (window_size / 2 : ℕ) - (window_shift / 2 : ℕ)

/-- Embedding of `_get_strided(waveform, window_size, window_shift, snip_edges)`:
rows are the frames.  `snip_edges=True` strides over the original waveform
(empty result when it is shorter than the window); `snip_edges=False` strides
over `extendedWaveform`. -/
def _get_strided (w : List ℝ) (window_size window_shift : ℕ) (snip_edges : Bool) :
    List (List ℝ) :=
  if snip_edges then
    if w.length < window_size then []
    else
      (List.range (1 + (w.length - window_size) / window_shift)).map
        (fun i => (w.drop (i * window_shift)).take window_size)
  else
    let ext := extendedWaveform w window_size window_shift
    let m := (w.length + window_shift / 2) / window_shift
    (List.range m).map (fun i => (ext.drop (i * window_shift)).take window_size)

/-- Embedding of `_get_log_energy(strided_input, epsilon, energy_floor)`,
per frame: `log(max(sum(x_i^2), epsilon))`, floored at `log(energy_floor)`
unless `energy_floor == 0`. -/
noncomputable def _get_log_energy (x : List ℝ) (epsilon energy_floor : ℝ) : ℝ :=
  let log_energy := Real.log (max (x.map (fun v => v ^ 2)).sum epsilon)
  if energy_floor = 0 then log_energy
  else max log_energy (Real.log energy_floor)

/-- Window shift in samples: `int(sample_frequency * frame_shift * 0.001)`. -/
def windowShiftOf (sample_frequency frame_shift : ℚ) : ℤ :=
  truncQ (sample_frequency * frame_shift * (1 / 1000))

/-- Window size in samples: `int(sample_frequency * frame_length * 0.001)`. -/
def windowSizeOf (sample_frequency frame_length : ℚ) : ℤ :=
  truncQ (sample_frequency * frame_length * (1 / 1000))

/-- Padded window size: next power of two when `round_to_power_of_two`. -/
def paddedWindowSizeOf (round_to_power_of_two : Bool) (window_size : ℤ) : ℤ :=
  if round_to_power_of_two then _next_power_of_2 window_size else window_size

/-- Embedding of `_get_waveform_and_window_properties`: clamps the channel
with `max(channel, 0)`, selects that row, computes window shift/size and the
padded window size, and runs the five asserts in source order.  A failing
assert is an `.error`. -/
def _get_waveform_and_window_properties (waveform : List (List ℝ)) (channel : ℤ)
    (sample_frequency frame_shift frame_length : ℚ) (round_to_power_of_two : Bool)
    (preemphasis_coefficient : ℚ) : Except String (List ℝ × ℤ × ℤ × ℤ) :=
  let channel2 := max channel 0
  if ¬ channel2 < (waveform.length : ℤ) then .error "Invalid channel" else
  let wav := waveform.getD channel2.toNat []
  let window_shift := windowShiftOf sample_frequency frame_shift
  let window_size := windowSizeOf sample_frequency frame_length
  let padded_window_size := paddedWindowSizeOf round_to_power_of_two window_size
  if ¬ (2 ≤ window_size ∧ window_size ≤ (wav.length : ℤ)) then
    .error "choose a window size in bounds" else
  if ¬ 0 < window_shift then .error "window_shift must be greater than 0" else
  if ¬ padded_window_size % 2 = 0 then
    .error "the padded window_size must be divisible by two" else
  if ¬ (0 ≤ preemphasis_coefficient ∧ preemphasis_coefficient ≤ 1) then
    .error "preemphasis_coefficient must be between 0 and 1" else
  if ¬ 0 < sample_frequency then .error "sample_frequency must be greater than zero" else
  .ok (wav, window_shift, window_size, padded_window_size)

/-- Embedding of `_feature_window_function(window_type, window_size,
blackman_coeff, ...)`, as a function of the sample index; an unknown window
type is a fatal error. -/
noncomputable def _feature_window_function (window_type : String) (window_size : ℕ)
    (blackman_coeff : ℝ) : Except String (ℕ → ℝ) :=
  if window_type = "hanning" then
    .ok fun k => (1 - Real.cos (2 * Real.pi * k / ((window_size : ℝ) - 1))) / 2
  else if window_type = "hamming" then
    .ok fun k => 0.54 - 0.46 * Real.cos (2 * Real.pi * k / ((window_size : ℝ) - 1))
  else if window_type = "povey" then
    .ok fun k => ((1 - Real.cos (2 * Real.pi * k / ((window_size : ℝ) - 1))) / 2) ^ (0.85 : ℝ)
  else if window_type = "rectangular" then
    .ok fun _ => 1
  else if window_type = "blackman" then
    .ok fun k =>
      let a := 2 * Real.pi / ((window_size : ℝ) - 1)
      blackman_coeff - 0.5 * Real.cos (a * k) +
        (0.5 - blackman_coeff) * Real.cos (2 * a * k)
  else .error ("Invalid window type " ++ window_type)

/-- Result of `_get_window`: the processed frame matrix (as a total function,
meaningful on `m × padded_window_size`), the per-frame log energy, and the
number of frames. -/
structure WindowOut where
  mat : ℕ → ℕ → ℝ
  energy : ℕ → ℝ
  m : ℕ

/-- Embedding of `_get_window`: frames the waveform, then applies (in source
order) dithering, DC-offset removal, the raw-energy computation, pre-emphasis
with replicated first sample, the window function, right zero-padding to the
padded window size, and the non-raw energy computation. -/
noncomputable def _get_window (ex : Externs) (waveform : List ℝ)
    (padded_window_size window_size window_shift : ℕ) (window_type : String)
    (blackman_coeff : ℝ) (snip_edges raw_energy : Bool) (energy_floor dither : ℝ)
    (remove_dc_offset : Bool) (preemphasis_coefficient : ℝ) :
    Except String WindowOut := do
  let strided := _get_strided waveform window_size window_shift snip_edges
  let m := strided.length
  let base : ℕ → ℕ → ℝ := fun i j => (strided.getD i []).getD j 0
  let m1 : ℕ → ℕ → ℝ :=
    if dither = 0 then base
    else fun i j =>
      let x := max EPSILON (ex.rand i j)
      base i j + Real.sqrt (-2 * Real.log x) * Real.cos (2 * Real.pi * x) * dither
  let m2 : ℕ → ℕ → ℝ :=
    if remove_dc_offset then
      fun i j => m1 i j - (∑ k ∈ Finset.range window_size, m1 i k) / window_size
    else m1
  let m3 : ℕ → ℕ → ℝ :=
    if preemphasis_coefficient = 0 then m2
    else fun i j => m2 i j - preemphasis_coefficient * m2 i (j - 1)
  let wf ← _feature_window_function window_type window_size blackman_coeff
  let m4 : ℕ → ℕ → ℝ := fun i j => m3 i j * wf j
  let m5 : ℕ → ℕ → ℝ :=
    if padded_window_size ≠ window_size then
      fun i j => if j < window_size then m4 i j else 0
    else m4
  let energy : ℕ → ℝ :=
    if raw_energy then
      fun i => _get_log_energy ((List.range window_size).map fun j => m2 i j)
        EPSILON energy_floor
    else
      fun i => _get_log_energy ((List.range padded_window_size).map fun j => m5 i j)
        EPSILON energy_floor
  return ⟨m5, energy, m⟩

/-- A 2-D feature result: row and column counts plus the entries. -/
structure Feats where
  rows : ℕ
  cols : ℕ
  entry : ℕ → ℕ → ℝ

/-- The empty result (`torch.empty(0)`) returned for too-short signals. -/
def emptyFeats : Feats := ⟨0, 0, fun _ _ => 0⟩

/-- Embedding of `_subtract_column_mean(tensor, subtract_mean)`. -/
noncomputable def _subtract_column_mean (F : Feats) (subtract_mean : Bool) : Feats :=
  if subtract_mean then
    ⟨F.rows, F.cols, fun i j => F.entry i j - (∑ k ∈ Finset.range F.rows, F.entry k j) / F.rows⟩
  else F

/-- Shared configuration of `spectrogram` / `fbank` / `mfcc` (the fields of
`spectrogram`), with the source's default values. -/
structure FrontParams where
  blackman_coeff : ℝ := 0.42
  channel : ℤ := -1
  dither : ℝ := 0
  energy_floor : ℝ := 1
  frame_length : ℚ := 25
  frame_shift : ℚ := 10
  min_duration : ℚ := 0
  preemphasis_coefficient : ℚ := 0.97
  raw_energy : Bool := true
  remove_dc_offset : Bool := true
  round_to_power_of_two : Bool := true
  sample_frequency : ℚ := 16000
  snip_edges : Bool := true
  subtract_mean : Bool := false
  window_type : String := "povey"

/-- Magnitude of one complex rFFT output bin of a frame row. -/
noncomputable def fftAbs (ex : Externs) (padded_window_size : ℕ) (mat : ℕ → ℕ → ℝ)
    (i j : ℕ) : ℝ :=
  let c := (ex.rfft ((List.range padded_window_size).map fun k => mat i k)).getD j (0, 0)
  Real.sqrt (c.1 ^ 2 + c.2 ^ 2)

/-- Embedding of `spectrogram`: validation, the `min_duration` early return
of an empty result, windowing, the log power spectrum floored at `EPSILON`,
the substitution of the per-frame log energy into column 0, and the optional
column-mean subtraction. -/
noncomputable def spectrogram (ex : Externs) (waveform : List (List ℝ))
    (p : FrontParams) : Except String Feats := do
  let (wav, window_shift, window_size, padded_window_size) ←
    _get_waveform_and_window_properties waveform p.channel p.sample_frequency
      p.frame_shift p.frame_length p.round_to_power_of_two p.preemphasis_coefficient
  if (wav.length : ℚ) < p.min_duration * p.sample_frequency then return emptyFeats
  let wo ← _get_window ex wav padded_window_size.toNat window_size.toNat
    window_shift.toNat p.window_type p.blackman_coeff p.snip_edges p.raw_energy
    p.energy_floor p.dither p.remove_dc_offset (p.preemphasis_coefficient : ℝ)
  let power : ℕ → ℕ → ℝ := fun i j =>
    Real.log (max (fftAbs ex padded_window_size.toNat wo.mat i j ^ 2) EPSILON)
  let power2 : ℕ → ℕ → ℝ := fun i j => if j = 0 then wo.energy i else power i j
  return _subtract_column_mean ⟨wo.m, padded_window_size.toNat / 2 + 1, power2⟩
    p.subtract_mean

/-- Embedding of `mel_scale_scalar(freq) = 1127.0 * log(1.0 + freq / 700.0)`. -/
noncomputable def mel_scale_scalar (freq : ℝ) : ℝ := 1127 * Real.log (1 + freq / 700)

/-- Embedding of `inverse_mel_scale_scalar(mel_freq) = 700.0 * (exp(mel_freq / 1127.0) - 1.0)`. -/
noncomputable def inverse_mel_scale_scalar (mel_freq : ℝ) : ℝ :=
  700 * (Real.exp (mel_freq / 1127) - 1)

/-- Embedding of `vtln_warp_freq`, per scalar frequency.  The source fills the
result with four boolean-mask writes, in the order `after_h`, `before_h`,
`before_l`, `outside_low_high_freq`, each overwriting the previous where true;
a later write therefore has priority, which is exactly the chain of `if`s
below read top to bottom (`outside` first, `after_h` last, and every
frequency satisfies `before_h ∨ after_h` so the uninitialized buffer never
survives). -/
noncomputable def vtln_warp_freq (vtln_low_cutoff vtln_high_cutoff low_freq high_freq
    vtln_warp_factor freq : ℝ) : ℝ :=
  let l := vtln_low_cutoff * max 1 vtln_warp_factor
  let h := vtln_high_cutoff * min 1 vtln_warp_factor
  let scale := 1 / vtln_warp_factor
  let scale_left := (scale * l - low_freq) / (l - low_freq)
  let scale_right := (high_freq - scale * h) / (high_freq - h)
  if freq < low_freq ∨ high_freq < freq then freq
  else if freq < l then low_freq + scale_left * (freq - low_freq)
  else if freq < h then scale * freq
  else high_freq + scale_right * (freq - high_freq)

/-- Embedding of `vtln_warp_mel_freq`: warp in Hz, converting through the mel
scale on both sides. -/
noncomputable def vtln_warp_mel_freq (vtln_low_cutoff vtln_high_cutoff low_freq high_freq
    vtln_warp_factor mel_freq : ℝ) : ℝ :=
  mel_scale_scalar (vtln_warp_freq vtln_low_cutoff vtln_high_cutoff low_freq high_freq
    vtln_warp_factor (inverse_mel_scale_scalar mel_freq))

/-- Arguments of `get_mel_banks`. -/
structure MelArgs where
  num_bins : ℕ
  window_length_padded : ℕ
  sample_freq : ℝ
  low_freq : ℝ
  high_freq : ℝ
  vtln_low : ℝ
  vtln_high : ℝ
  vtln_warp_factor : ℝ

/-- Value of `high_freq` after the source's adjustment `if high_freq <= 0.0: high_freq += nyquist`. -/
noncomputable def adjustedHighFreq (a : MelArgs) : ℝ :=
  if a.high_freq ≤ 0 then a.high_freq + 0.5 * a.sample_freq else a.high_freq

/-- Value of `vtln_high` after the source's adjustment `if vtln_high < 0.0: vtln_high += nyquist`. -/
noncomputable def adjustedVtlnHigh (a : MelArgs) : ℝ :=
  if a.vtln_high < 0 then a.vtln_high + 0.5 * a.sample_freq else a.vtln_high

/-- Embedding of `mel_freq_delta = (mel_high_freq - mel_low_freq) / (num_bins + 1)`. -/
noncomputable def melFreqDelta (a : MelArgs) : ℝ :=
  (mel_scale_scalar (adjustedHighFreq a) - mel_scale_scalar a.low_freq) / (a.num_bins + 1)

/-- The VTLN warp applied to a mel boundary when `vtln_warp_factor != 1.0`. -/
noncomputable def warpMelIf (a : MelArgs) (mel : ℝ) : ℝ :=
  if a.vtln_warp_factor ≠ 1 then
    vtln_warp_mel_freq a.vtln_low (adjustedVtlnHigh a) a.low_freq (adjustedHighFreq a)
      a.vtln_warp_factor mel
  else mel

/-- Left mel boundary of bin `i` (after the optional VTLN warp). -/
noncomputable def leftMel (a : MelArgs) (i : ℕ) : ℝ :=
  warpMelIf a (mel_scale_scalar a.low_freq + i * melFreqDelta a)

/-- Center mel boundary of bin `i` (after the optional VTLN warp). -/
noncomputable def centerMel (a : MelArgs) (i : ℕ) : ℝ :=
  warpMelIf a (mel_scale_scalar a.low_freq + (i + 1) * melFreqDelta a)

/-- Right mel boundary of bin `i` (after the optional VTLN warp). -/
noncomputable def rightMel (a : MelArgs) (i : ℕ) : ℝ :=
  warpMelIf a (mel_scale_scalar a.low_freq + (i + 2) * melFreqDelta a)

/-- Mel value of FFT bin `j`: `mel_scale(fft_bin_width * j)` with
`fft_bin_width = sample_freq / window_length_padded`. -/
noncomputable def melBinOf (a : MelArgs) (j : ℕ) : ℝ :=
  mel_scale_scalar (a.sample_freq / a.window_length_padded * j)

/-- The mel filterbank weights of `get_mel_banks` (bin `i`, FFT bin `j`):
`max(0, min(up_slope, down_slope))` when `vtln_warp_factor == 1.0`, and the
region-selected slopes otherwise. -/
noncomputable def melBanksBins (a : MelArgs) (i j : ℕ) : ℝ :=
  let lm := leftMel a i
  let cm := centerMel a i
  let rm := rightMel a i
  let mel := melBinOf a j
  let up_slope := (mel - lm) / (cm - lm)
  let down_slope := (rm - mel) / (rm - cm)
  if a.vtln_warp_factor = 1 then max 0 (min up_slope down_slope)
  else if lm < mel ∧ mel ≤ cm then up_slope
  else if cm < mel ∧ mel < rm then down_slope
  else 0

/-- Center frequencies (Hz) returned by `get_mel_banks`. -/
noncomputable def melCenterFreqs (a : MelArgs) (i : ℕ) : ℝ :=
  inverse_mel_scale_scalar (centerMel a i)

/-- Embedding of `get_mel_banks`: the asserts in source order, then the weight
matrix (of size `num_bins × window_length_padded / 2`) and center
frequencies. -/
noncomputable def get_mel_banks (a : MelArgs) : Except String ((ℕ → ℕ → ℝ) × (ℕ → ℝ)) :=
  let nyquist := 0.5 * a.sample_freq
  if ¬ 3 < a.num_bins then .error "Must have at least 3 mel bins" else
  if ¬ a.window_length_padded % 2 = 0 then .error "padded window length must be even" else
  if ¬ (0 ≤ a.low_freq ∧ a.low_freq < nyquist ∧ 0 < adjustedHighFreq a ∧
      adjustedHighFreq a ≤ nyquist ∧ a.low_freq < adjustedHighFreq a) then
    .error "Bad values in options: low-freq and high-freq" else
  if ¬ (a.vtln_warp_factor = 1 ∨
      (a.low_freq < a.vtln_low ∧ a.vtln_low < adjustedHighFreq a ∧
        0 < adjustedVtlnHigh a ∧ adjustedVtlnHigh a < adjustedHighFreq a ∧
        a.vtln_low < adjustedVtlnHigh a)) then
    .error "Bad values in options: vtln-low and vtln-high" else
  .ok (melBanksBins a, melCenterFreqs a)

/-- Zero-pad the mel bank on the right with one column
(`torch.nn.functional.pad(mel_energies, (0, 1))`): entries beyond the
`num_fft_bins` genuine columns are zero. -/
noncomputable def paddedMelBank (bank : ℕ → ℕ → ℝ) (num_fft_bins : ℕ) (i j : ℕ) : ℝ :=
  if j < num_fft_bins then bank i j else 0

/-- The matrix product `torch.mm(spectrum, mel_energies.T)` of the spectrum
(`num_fft_bins + 1` columns) with the zero-padded mel bank. -/
noncomputable def melDot (spectrum bankPadded : ℕ → ℕ → ℝ) (num_fft_bins : ℕ)
    (m i : ℕ) : ℝ :=
  ∑ j ∈ Finset.range (num_fft_bins + 1), spectrum m j * bankPadded i j

/-- The extra configuration fields of `fbank` (beyond `FrontParams`), with the
source's default values. -/
structure FbankParams where
  high_freq : ℝ := 0
  htk_compat : Bool := false
  low_freq : ℝ := 20
  num_mel_bins : ℕ := 23
  use_energy : Bool := false
  use_log_fbank : Bool := true
  use_power : Bool := true
  vtln_high : ℝ := -500
  vtln_low : ℝ := 100
  vtln_warp : ℝ := 1

/-- Embedding of `fbank`: the shared validation and framing pipeline, the
linear spectrum (power or magnitude), projection through the zero-padded mel
bank, the optional elementwise `log(max(., EPSILON))`, the optional energy
column (last when `htk_compat`, first otherwise), and the optional
column-mean subtraction. -/
noncomputable def fbank (ex : Externs) (waveform : List (List ℝ)) (p : FrontParams)
    (q : FbankParams) : Except String Feats := do
  let (wav, window_shift, window_size, padded_window_size) ←
    _get_waveform_and_window_properties waveform p.channel p.sample_frequency
      p.frame_shift p.frame_length p.round_to_power_of_two p.preemphasis_coefficient
  if (wav.length : ℚ) < p.min_duration * p.sample_frequency then return emptyFeats
  let wo ← _get_window ex wav padded_window_size.toNat window_size.toNat
    window_shift.toNat p.window_type p.blackman_coeff p.snip_edges p.raw_energy
    p.energy_floor p.dither p.remove_dc_offset (p.preemphasis_coefficient : ℝ)
  let spectrum : ℕ → ℕ → ℝ :=
    if q.use_power then fun i j => fftAbs ex padded_window_size.toNat wo.mat i j ^ 2
    else fftAbs ex padded_window_size.toNat wo.mat
  let a : MelArgs := ⟨q.num_mel_bins, padded_window_size.toNat, (p.sample_frequency : ℝ),
    q.low_freq, q.high_freq, q.vtln_low, q.vtln_high, q.vtln_warp⟩
  let (bank, _) ← get_mel_banks a
  let num_fft_bins := padded_window_size.toNat / 2
  let banked := melDot spectrum (paddedMelBank bank num_fft_bins) num_fft_bins
  let mel_energies : ℕ → ℕ → ℝ :=
    if q.use_log_fbank then fun m i => Real.log (max (banked m i) EPSILON) else banked
  let withEnergy : Feats :=
    if q.use_energy then
      if q.htk_compat then
        ⟨wo.m, q.num_mel_bins + 1, fun r c =>
          if c = q.num_mel_bins then wo.energy r else mel_energies r c⟩
      else
        ⟨wo.m, q.num_mel_bins + 1, fun r c =>
          if c = 0 then wo.energy r else mel_energies r (c - 1)⟩
    else ⟨wo.m, q.num_mel_bins, mel_energies⟩
  return _subtract_column_mean withEnergy p.subtract_mean

/-- Embedding of `_get_dct_matrix(num_ceps, num_mel_bins)`: the external
orthonormal DCT-II basis with column 0 forced to the constant
`sqrt(1 / num_mel_bins)`, truncated (by use) to the first `num_ceps`
columns. -/
noncomputable def _get_dct_matrix (ex : Externs) (num_mel_bins : ℕ) (k c : ℕ) : ℝ :=
  if c = 0 then Real.sqrt (1 / (num_mel_bins : ℝ)) else ex.createDct num_mel_bins k c

/-- Embedding of `_get_lifter_coeffs(num_ceps, cepstral_lifter)` at index `i`. -/
noncomputable def _get_lifter_coeffs (cepstral_lifter : ℝ) (i : ℕ) : ℝ :=
  1 + 0.5 * cepstral_lifter * Real.sin (Real.pi * i / cepstral_lifter)

/-- Embedding of `mfcc` up to (and excluding) the HTK-compat reordering
block: the `num_ceps <= num_mel_bins` assert, the internal `fbank` call with
`use_power=True, use_log_fbank=True, subtract_mean=False`, the optional
energy-column extraction, the DCT projection, the optional liftering, and the
optional energy substitution into column 0. -/
noncomputable def mfccFeatureBeforeHtk (ex : Externs) (waveform : List (List ℝ))
    (p : FrontParams) (q : FbankParams) (cepstral_lifter : ℝ) (num_ceps : ℕ) :
    Except String Feats := do
  if ¬ num_ceps ≤ q.num_mel_bins then
    .error "num_ceps cannot be larger than num_mel_bins" else
  let feature ← fbank ex waveform { p with subtract_mean := false }
    { q with use_log_fbank := true, use_power := true }
  let signal_log_energy : ℕ → ℝ := fun m =>
    feature.entry m (if q.htk_compat then q.num_mel_bins else 0)
  let mel_offset : ℕ := if q.htk_compat then 0 else 1
  let sliced : Feats :=
    if q.use_energy then
      ⟨feature.rows, q.num_mel_bins, fun m k => feature.entry m (k + mel_offset)⟩
    else feature
  let f1 : Feats := ⟨sliced.rows, num_ceps, fun m c =>
    ∑ k ∈ Finset.range q.num_mel_bins, sliced.entry m k * _get_dct_matrix ex q.num_mel_bins k c⟩
  let f2 : Feats :=
    if cepstral_lifter ≠ 0 then
      ⟨f1.rows, f1.cols, fun m c => f1.entry m c * _get_lifter_coeffs cepstral_lifter c⟩
    else f1
  let f3 : Feats :=
    if q.use_energy then
      ⟨f2.rows, f2.cols, fun m c => if c = 0 then signal_log_energy m else f2.entry m c⟩
    else f2
  return f3

/-- Embedding of `mfcc`: the pre-HTK pipeline, then the HTK-compat
reordering (column 0 moved last, scaled by `sqrt 2` when it is a true C0),
then the optional column-mean subtraction. -/
noncomputable def mfcc (ex : Externs) (waveform : List (List ℝ)) (p : FrontParams)
    (q : FbankParams) (cepstral_lifter : ℝ) (num_ceps : ℕ) : Except String Feats := do
  let f3 ← mfccFeatureBeforeHtk ex waveform p q cepstral_lifter num_ceps
  let f4 : Feats :=
    if q.htk_compat then
      ⟨f3.rows, f3.cols, fun m c =>
        if c = f3.cols - 1 then
          if q.use_energy then f3.entry m 0 else Real.sqrt 2 * f3.entry m 0
        else f3.entry m (c + 1)⟩
    else f3
  return _subtract_column_mean f4 p.subtract_mean

/-- Kernel half width of `_get_sinc_resample_kernel`:
`ceil(lowpass_filter_width * orig_freq / base_freq)` with
`base_freq = 0.99 * min(orig_freq, new_freq)` (exact rational arithmetic). -/
def resampleWidth (orig_freq new_freq lowpass_filter_width : ℕ) : ℕ :=
  (Int.ceil ((lowpass_filter_width * orig_freq : ℚ) /
    (0.99 * (min orig_freq new_freq : ℕ)))).toNat

/-- One tap of the per-phase sinc kernel of `_get_sinc_resample_kernel`:
phase `i`, tap position `k` along `idx = arange(-width, width + orig_freq)`,
so `idx = k - width`.  `t` is clamped to `±lowpass_filter_width`, scaled by
`π`; the tap is `sinc(t)` (with the `t = 0` tap forced to 1), multiplied by
the raised-cosine window `cos(t / lowpass_filter_width / 2)²` and by the
scale `base_freq / orig_freq`. -/
noncomputable def resampleKernel (orig_freq new_freq lowpass_filter_width : ℕ)
    (i k : ℕ) : ℝ :=
  let base_freq : ℝ := 0.99 * (min orig_freq new_freq : ℕ)
  let width := resampleWidth orig_freq new_freq lowpass_filter_width
  let t0 : ℝ := (-(i : ℝ) / new_freq + ((k : ℝ) - width) / orig_freq) * base_freq
  let t1 := max (-(lowpass_filter_width : ℝ)) (min (lowpass_filter_width : ℝ) t0)
  let t := t1 * Real.pi
  let window := Real.cos (t / lowpass_filter_width / 2) ^ 2
  (if t = 0 then 1 else Real.sin t / t) * window * (base_freq / orig_freq)

/-- One entry of the zero-padded channel fed to the strided convolution:
`width` zeros, the channel, then `width + orig_freq` zeros (only the first
`width` of the right padding is ever indexed by the convolution). -/
def paddedEntry (x : List ℝ) (width : ℕ) (p : ℕ) : ℝ :=
  if p < width then 0 else if p < width + x.length then x.getD (p - width) 0 else 0

/-- The strided 1-D convolution of `F.conv1d`: output of phase `i` at
position `j`, summing the `2*width + orig_freq` kernel taps against the
padded channel starting at `j * orig_freq`. -/
noncomputable def convAt (orig_freq new_freq lowpass_filter_width : ℕ) (x : List ℝ)
    (i j : ℕ) : ℝ :=
  ∑ k ∈ Finset.range (2 * resampleWidth orig_freq new_freq lowpass_filter_width + orig_freq),
    resampleKernel orig_freq new_freq lowpass_filter_width i k *
      paddedEntry x (resampleWidth orig_freq new_freq lowpass_filter_width)
        (j * orig_freq + k)

/-- Resampling of one channel, after GCD reduction: the padded input has
length `n + 2*width + orig_freq`, so the convolution produces
`(n + 2*width + orig_freq - kernel_size) / orig_freq + 1 = n / orig_freq + 1`
positions per phase (matching `F.conv1d` with stride `orig_freq`); the
per-phase output streams are interleaved
(`transpose(1, 2).reshape(num_wavs, -1)`), and the result is truncated to
`ceil(new_freq * length / orig_freq)` samples. -/
noncomputable def resampleChannel (orig_freq new_freq lowpass_filter_width : ℕ)
    (x : List ℝ) : List ℝ :=
  let num_positions := x.length / orig_freq + 1
  let out := (List.range (num_positions * new_freq)).map fun t =>
    convAt orig_freq new_freq lowpass_filter_width x (t % new_freq) (t / new_freq)
  let target_length := (Int.ceil ((new_freq * x.length : ℕ) / (orig_freq : ℚ))).toNat
  out.take target_length

/-- Embedding of `resample_waveform(waveform, orig_freq, new_freq,
lowpass_filter_width)`: the positivity asserts, the `int()` coercions, the
GCD reduction, and the per-channel strided convolution.  The padded input has
length `n + 2*width + orig_freq`, so the convolution produces
`(n + 2*width + orig_freq - kernel_size) / orig_freq + 1 = n / orig_freq + 1`
positions per phase, matching `F.conv1d`. -/
noncomputable def resample_waveform (waveform : List (List ℝ))
    (orig_freq new_freq : ℚ) (lowpass_filter_width : ℕ := 6) :
    Except String (List (List ℝ)) :=
  if ¬ (0 < orig_freq ∧ 0 < new_freq) then
    .error "frequencies must be positive" else
  let orig0 := (truncQ orig_freq).toNat
  let new0 := (truncQ new_freq).toNat
  let g := Nat.gcd orig0 new0
  .ok (waveform.map (resampleChannel (orig0 / g) (new0 / g) lowpass_filter_width))

/-- Modelled from the spec: "Log-energy formula: `log(max(sum(x_i^2),
epsilon))`, then floored again at `log(energy_floor)` if energy_floor ≠ 0.
`epsilon` is the smallest representable positive increment for the working
floating type."  This follows the spec's words, with `machineEpsSpec` of the
working dtype, for comparison with the source's `_get_log_energy`, which
always receives the float32 epsilon. -/
noncomputable def logEnergySpec (x : List ℝ) (d : Dtype) (energy_floor : ℝ) : ℝ :=
  let log_energy := Real.log (max (x.map (fun v => v ^ 2)).sum (machineEpsSpec d))
  if energy_floor = 0 then log_energy
  else max log_energy (Real.log energy_floor)

/-- Entry of a fallible feature matrix (0 on the error branch). -/
noncomputable def entryAt (e : Except String Feats) (m c : ℕ) : ℝ :=
  match e with
  | .ok F => F.entry m c
  | .error _ => 0

/-- Binding a successful `Except` computation applies the continuation. -/
theorem exceptBind_ok {α β : Type} (a : α) (f : α → Except String β) :
    (Except.ok a : Except String α) >>= f = f a := rfl

/-- Binding a failed `Except` computation propagates the error. -/
theorem exceptBind_error {α β : Type} (e : String) (f : α → Except String β) :
    (Except.error e : Except String α) >>= f = Except.error e := rfl

/-- Reading an entry of a successful result gives the matrix entry. -/
theorem entryAt_ok (F : Feats) (m c : ℕ) : entryAt (Except.ok F) m c = F.entry m c := rfl

/-- Reading an entry of a `pure` result gives the matrix entry. -/
theorem entryAt_pure (F : Feats) (m c : ℕ) : entryAt (pure F) m c = F.entry m c := rfl

/-- Reading an entry of an error result gives zero. -/
theorem entryAt_error (e : String) (m c : ℕ) : entryAt (Except.error e) m c = 0 := rfl

/-- A concrete instantiation of the external collaborators, used to evaluate
the pipeline's control flow on concrete inputs. -/
noncomputable def trivialExterns : Externs :=
  ⟨fun _ => [], fun _ _ => 0, fun _ _ _ => 0⟩

/-- Sum of squares of a list as an indexed finite sum. -/
theorem list_sum_sq_eq (x : List ℝ) :
    (x.map (fun v => v ^ 2)).sum = ∑ i ∈ Finset.range x.length, x.getD i 0 ^ 2 := by
  induction x with
  | nil => simp
  | cons a t ih =>
    rw [List.map_cons, List.sum_cons, List.length_cons, Finset.sum_range_succ', ih]
    simp [add_comm]

/-- C4: with `snip_edges = true` the framer returns an empty frame matrix
when the waveform is shorter than the window, and otherwise exactly
`1 + (n - window_size) / window_shift` frames, each of length `window_size`,
whose `j`-th entry is the original sample at `i * window_shift + j` (no
padding). -/
theorem framer_snip_edges_exact (w : List ℝ) (ws shift : ℕ) :
    (w.length < ws → _get_strided w ws shift true = []) ∧
    (ws ≤ w.length →
      (_get_strided w ws shift true).length = 1 + (w.length - ws) / shift ∧
      ∀ i < 1 + (w.length - ws) / shift,
        ((_get_strided w ws shift true).getD i []).length = ws ∧
        ∀ j < ws, ((_get_strided w ws shift true).getD i []).getD j 0 =
          w.getD (i * shift + j) 0) := by
  constructor
  · intro h
    simp [_get_strided, h]
  · intro h
    have hnot : ¬ w.length < ws := not_lt.2 h
    have hrow : ∀ i, i < 1 + (w.length - ws) / shift → i * shift + ws ≤ w.length := by
      intro i hi
      have h1 : i ≤ (w.length - ws) / shift := by omega
      have h2 : i * shift ≤ (w.length - ws) / shift * shift := Nat.mul_le_mul_right _ h1
      have h3 : (w.length - ws) / shift * shift ≤ w.length - ws := Nat.div_mul_le_self _ _
      omega
    refine ⟨by simp [_get_strided, hnot], ?_⟩
    intro i hi
    have hrowi := hrow i hi
    have hgd : (_get_strided w ws shift true).getD i [] = (w.drop (i * shift)).take ws := by
      rw [List.getD_eq_getElem?_getD]
      simp [_get_strided, hnot, List.getElem?_map, List.getElem?_range, hi]
    refine ⟨?_, ?_⟩
    · rw [hgd, List.length_take, List.length_drop]
      omega
    · intro j hj
      rw [hgd, List.getD_eq_getElem?_getD, List.getElem?_take_of_lt hj,
        List.getElem?_drop, ← List.getD_eq_getElem?_getD]

/-- Witness for C4 at a concrete input. -/
theorem framer_snip_edges_exact_witness :
    (3 ≤ 5 ∧ (_get_strided [(5:ℝ), 6, 7, 8, 9] 3 2 true).length = 1 + (5 - 3) / 2) ∧
    (1 < 2 ∧ _get_strided [(5:ℝ)] 2 1 true = []) :=
  ⟨⟨by decide, ((framer_snip_edges_exact [(5:ℝ), 6, 7, 8, 9] 3 2).2 (by decide)).1⟩,
    ⟨by decide, (framer_snip_edges_exact [(5:ℝ)] 2 1).1 (by decide)⟩⟩

/-- C9 counterexample: on dtype float64 the source computes the log energy
with the float32 epsilon `2⁻²³` (the module constant cast to the working
dtype), not with float64's machine epsilon `2⁻⁵²` as the claim's reading of
"the working floating type" would require; on an all-zero frame the two
values differ. -/
theorem log_energy_epsilon_counterexample :
    _get_log_energy [(0 : ℝ)] (_get_epsilon .float64) 0 ≠
      logEnergySpec [(0 : ℝ)] .float64 0 := by
  have h1 : _get_log_energy [(0 : ℝ)] (_get_epsilon .float64) 0 =
      Real.log (1 / 8388608) := by
    rw [_get_log_energy, _get_epsilon, EPSILON]
    norm_num
  have h2 : logEnergySpec [(0 : ℝ)] .float64 0 =
      Real.log (1 / 4503599627370496) := by
    rw [logEnergySpec, machineEpsSpec]
    norm_num
  rw [h1, h2]
  exact ne_of_gt (Real.log_lt_log (by norm_num) (by norm_num))

/-- C9 (amended): the per-frame log energy is `log(max(Σ xᵢ², ε))` with
`ε = 2⁻²³` (the float32 machine epsilon, whatever the working dtype), floored
additionally at `log(energy_floor)` exactly when `energy_floor ≠ 0`. -/
theorem log_energy_formula (x : List ℝ) (d : Dtype) (energy_floor : ℝ) :
    _get_log_energy x (_get_epsilon d) energy_floor =
      if energy_floor = 0 then
        Real.log (max (∑ i ∈ Finset.range x.length, x.getD i 0 ^ 2) (1 / 8388608))
      else
        max (Real.log (max (∑ i ∈ Finset.range x.length, x.getD i 0 ^ 2) (1 / 8388608)))
          (Real.log energy_floor) := by
  rw [_get_log_energy, _get_epsilon, EPSILON, list_sum_sq_eq]

/-- C10: in `fbank`, the mel bank is padded with one zero column before the
matrix product with the spectrum, so the Nyquist FFT bin (column
`num_fft_bins = padded_window_size / 2` of the spectrum) always meets a zero
weight and contributes nothing to any mel energy. -/
theorem fbank_nyquist_bin_zero (a : MelArgs) (spectrum : ℕ → ℕ → ℝ)
    (num_fft_bins m i : ℕ) :
    paddedMelBank (melBanksBins a) num_fft_bins i num_fft_bins = 0 ∧
    melDot spectrum (paddedMelBank (melBanksBins a) num_fft_bins) num_fft_bins m i =
      ∑ j ∈ Finset.range num_fft_bins, spectrum m j * melBanksBins a i j := by
  constructor
  · simp [paddedMelBank]
  · rw [melDot, Finset.sum_range_succ]
    have hlast : paddedMelBank (melBanksBins a) num_fft_bins i num_fft_bins = 0 := by
      simp [paddedMelBank]
    rw [hlast, mul_zero, add_zero]
    refine Finset.sum_congr rfl fun j hj => ?_
    rw [paddedMelBank, if_pos (Finset.mem_range.1 hj)]

/-- C8: with `cepstral_lifter = 0` and `use_energy = false`, column 0 of the
mfcc feature matrix before the HTK-compat reordering equals
`sqrt(1 / num_mel_bins)` times the sum over mel bins of the log mel energies
(the `fbank` output) of that frame, because column 0 of the truncated
orthonormal DCT-II basis is forced to the constant `sqrt(1 / num_mel_bins)`. -/
theorem mfcc_column0_energy_sum (ex : Externs) (waveform : List (List ℝ))
    (p : FrontParams) (q : FbankParams) (num_ceps m : ℕ)
    (hq : q.use_energy = false) (hc : num_ceps ≤ q.num_mel_bins) :
    entryAt (mfccFeatureBeforeHtk ex waveform p q 0 num_ceps) m 0 =
      Real.sqrt (1 / (q.num_mel_bins : ℝ)) *
        ∑ k ∈ Finset.range q.num_mel_bins,
          entryAt (fbank ex waveform { p with subtract_mean := false }
            { q with use_log_fbank := true, use_power := true }) m k := by
  rw [mfccFeatureBeforeHtk]
  rw [if_neg (not_not_intro hc)]
  cases hfb : fbank ex waveform { p with subtract_mean := false }
      { q with use_log_fbank := true, use_power := true } with
  | error e =>
    rw [exceptBind_error, entryAt_error]
    simp [entryAt_error]
  | ok F =>
    rw [exceptBind_ok]
    simp only [hq, Bool.false_eq_true, if_false, ne_eq, eq_self_iff_true,
      not_true_eq_false, entryAt_pure, entryAt_ok]
    rw [Finset.mul_sum]
    refine Finset.sum_congr rfl fun k _ => ?_
    rw [_get_dct_matrix, if_pos rfl, mul_comm]

/-- Witness for C8 at the default configuration (`num_ceps = 13`,
`num_mel_bins = 23`, `use_energy = false`). -/
theorem mfcc_column0_energy_sum_witness :
    ({} : FbankParams).use_energy = false ∧ 13 ≤ ({} : FbankParams).num_mel_bins ∧
    entryAt (mfccFeatureBeforeHtk trivialExterns [[(0 : ℝ)]] {} {} 0 13) 0 0 =
      Real.sqrt (1 / (({} : FbankParams).num_mel_bins : ℝ)) *
        ∑ k ∈ Finset.range ({} : FbankParams).num_mel_bins,
          entryAt (fbank trivialExterns [[(0 : ℝ)]]
            { ({} : FrontParams) with subtract_mean := false }
            { ({} : FbankParams) with use_log_fbank := true, use_power := true }) 0 k :=
  ⟨rfl, by decide,
    mfcc_column0_energy_sum trivialExterns [[(0 : ℝ)]] {} {} 13 0 rfl (by decide)⟩

/-- Clamping of non-positive channel arguments: `max(channel, 0)` makes the
validation behave exactly as for channel 0. -/
theorem gwp_channel_clamp (w : List (List ℝ)) (ch : ℤ) (hch : ch ≤ 0)
    (fs fsh fl : ℚ) (r : Bool) (pre : ℚ) :
    _get_waveform_and_window_properties w ch fs fsh fl r pre =
      _get_waveform_and_window_properties w 0 fs fsh fl r pre := by
  unfold _get_waveform_and_window_properties
  rw [max_eq_right hch, max_self]

/-- C3 counterexample: a two-channel input with `channel = -1` is accepted by
`spectrogram` (the channel is clamped to 0), not rejected as a configuration
error. -/
theorem channel_negative_counterexample :
    (spectrogram trivialExterns
      [List.replicate 10 (0 : ℝ), List.replicate 10 (0 : ℝ)]
      { channel := -1, frame_length := 10, frame_shift := 5,
        sample_frequency := 1000 }).isOk = true := by
  have hws : windowSizeOf 1000 10 = 10 := by norm_num [windowSizeOf, truncQ]
  have hsh : windowShiftOf 1000 5 = 5 := by norm_num [windowShiftOf, truncQ]
  have hprops : _get_waveform_and_window_properties
      [List.replicate 10 (0 : ℝ), List.replicate 10 (0 : ℝ)] (-1) 1000 5 10 true
      (0.97 : ℚ) = .ok (List.replicate 10 (0 : ℝ), 5, 10, 16) := by
    unfold _get_waveform_and_window_properties
    rw [hws, hsh]
    have h9 : Nat.size 9 = 4 :=
      le_antisymm (Nat.size_le.2 (by norm_num)) (Nat.lt_size.2 (by norm_num))
    norm_num [paddedWindowSizeOf, _next_power_of_2, h9]
  unfold spectrogram
  dsimp only
  rw [hprops, exceptBind_ok]
  dsimp only
  rw [if_neg (by simp : ¬ ((List.replicate 10 (0 : ℝ)).length : ℚ) < 0 * 1000)]
  rfl

/-- C3 (amended): `channel = -1` is clamped by `max(channel, 0)` to channel 0,
so with a two-channel input the call silently selects the first channel and
proceeds; the channel assert fails only when no channel is present.
`spectrogram`, `fbank` and `mfcc` therefore behave identically for
`channel = -1` and `channel = 0`. -/
theorem channel_negative_selects_first (ex : Externs) (w : List (List ℝ))
    (p : FrontParams) (q : FbankParams) (cl : ℝ) (nc : ℕ)
    (fs fsh fl : ℚ) (r : Bool) (pre : ℚ) :
    _get_waveform_and_window_properties w (-1) fs fsh fl r pre =
      _get_waveform_and_window_properties w 0 fs fsh fl r pre ∧
    (0 < w.length →
      _get_waveform_and_window_properties w (-1) fs fsh fl r pre ≠
        Except.error "Invalid channel") ∧
    (∀ wav a b c, _get_waveform_and_window_properties w (-1) fs fsh fl r pre =
      .ok (wav, a, b, c) → wav = w.getD 0 []) ∧
    spectrogram ex w { p with channel := -1 } = spectrogram ex w { p with channel := 0 } ∧
    fbank ex w { p with channel := -1 } q = fbank ex w { p with channel := 0 } q ∧
    mfcc ex w { p with channel := -1 } q cl nc =
      mfcc ex w { p with channel := 0 } q cl nc := by
  have hm : (-1 : ℤ) ≤ 0 := by norm_num
  refine ⟨gwp_channel_clamp w (-1) hm fs fsh fl r pre, ?_, ?_, ?_, ?_, ?_⟩
  · intro hlen
    rw [gwp_channel_clamp w (-1) hm fs fsh fl r pre]
    unfold _get_waveform_and_window_properties
    rw [max_self]
    have hc : ¬ ¬ ((0 : ℤ) < (w.length : ℤ)) := not_not_intro (by exact_mod_cast hlen)
    rw [if_neg hc]
    dsimp only
    split_ifs <;> simp
  · intro wav a b c hok
    rw [gwp_channel_clamp w (-1) hm fs fsh fl r pre] at hok
    unfold _get_waveform_and_window_properties at hok
    rw [max_self] at hok
    dsimp only at hok
    split_ifs at hok
    simp_all
  · dsimp only [spectrogram]
    rw [gwp_channel_clamp w (-1) hm]
  · dsimp only [fbank]
    rw [gwp_channel_clamp w (-1) hm]
  · dsimp only [mfcc, mfccFeatureBeforeHtk, fbank]
    rw [gwp_channel_clamp w (-1) hm]

/-- Witness for C3 (amended) at a concrete two-channel input. -/
theorem channel_negative_selects_first_witness :
    (0 < [[(0 : ℝ)], [(0 : ℝ)]].length ∧
      _get_waveform_and_window_properties [[(0 : ℝ)], [(0 : ℝ)]] (-1) 1 1 1 true 1 ≠
        Except.error "Invalid channel") ∧
    spectrogram trivialExterns [[(0 : ℝ)], [(0 : ℝ)]]
        { ({} : FrontParams) with channel := -1 } =
      spectrogram trivialExterns [[(0 : ℝ)], [(0 : ℝ)]]
        { ({} : FrontParams) with channel := 0 } :=
  ⟨⟨by decide, (channel_negative_selects_first trivialExterns [[(0 : ℝ)], [(0 : ℝ)]]
      {} {} 0 0 1 1 1 true 1).2.1 (by decide)⟩,
    (channel_negative_selects_first trivialExterns [[(0 : ℝ)], [(0 : ℝ)]]
      {} {} 0 0 1 1 1 true 1).2.2.2.1⟩

/-- C2 counterexample: an input with fewer samples than the window size is a
fatal error for `spectrogram` (the `2 <= window_size <= len(waveform)` assert
fires), not an empty result: with `sample_frequency = 1000` and
`frame_length = 10` the window needs 10 samples but the input has 4. -/
theorem short_input_raises_counterexample :
    spectrogram trivialExterns [[(0 : ℝ), 0, 0, 0]]
      { channel := 0, frame_length := 10, frame_shift := 5, sample_frequency := 1000 } =
      .error "choose a window size in bounds" := by
  have hws : windowSizeOf 1000 10 = 10 := by norm_num [windowSizeOf, truncQ]
  have herr : _get_waveform_and_window_properties [[(0 : ℝ), 0, 0, 0]] 0 1000 5 10 true
      (0.97 : ℚ) = .error "choose a window size in bounds" := by
    unfold _get_waveform_and_window_properties
    rw [hws]
    norm_num
  unfold spectrogram
  dsimp only
  rw [herr, exceptBind_error]

/-- C2 (amended): a signal whose duration is below `min_duration` (and which
passes the window validation, in particular has at least `window_size`
samples) yields an explicit empty result from both `spectrogram` and `fbank`;
but an input with fewer samples than `window_size` under any edge policy
fails the window-size assert and is a fatal error, so the framer's empty
(0×0) branch is unreachable from `spectrogram`/`fbank`. -/
theorem short_input_behavior (ex : Externs) (w : List (List ℝ)) (p : FrontParams)
    (q : FbankParams) :
    (∀ wav a b c,
      _get_waveform_and_window_properties w p.channel p.sample_frequency p.frame_shift
          p.frame_length p.round_to_power_of_two p.preemphasis_coefficient =
        .ok (wav, a, b, c) →
      (wav.length : ℚ) < p.min_duration * p.sample_frequency →
      spectrogram ex w p = .ok emptyFeats ∧ fbank ex w p q = .ok emptyFeats) ∧
    (max p.channel 0 < (w.length : ℤ) →
      ((w.getD (max p.channel 0).toNat []).length : ℤ) <
        windowSizeOf p.sample_frequency p.frame_length →
      spectrogram ex w p = .error "choose a window size in bounds" ∧
      fbank ex w p q = .error "choose a window size in bounds") := by
  constructor
  · intro wav a b c hok hdur
    constructor
    · unfold spectrogram
      rw [hok, exceptBind_ok]
      dsimp only
      rw [if_pos hdur]
      rfl
    · unfold fbank
      rw [hok, exceptBind_ok]
      dsimp only
      rw [if_pos hdur]
      rfl
  · intro hch hlen
    have herr : _get_waveform_and_window_properties w p.channel p.sample_frequency
        p.frame_shift p.frame_length p.round_to_power_of_two p.preemphasis_coefficient =
        .error "choose a window size in bounds" := by
      unfold _get_waveform_and_window_properties
      rw [if_neg (not_not_intro hch)]
      dsimp only
      rw [if_pos (fun hcon => absurd hcon.2 (not_le.2 hlen))]
    constructor
    · unfold spectrogram
      rw [herr, exceptBind_error]
    · unfold fbank
      rw [herr, exceptBind_error]

/-- Witness for C2 (amended): a 10-sample signal below `min_duration = 1 s`
yields the empty result, and a 4-sample signal (shorter than the 10-sample
window) is a fatal error, for both `spectrogram` and `fbank`. -/
theorem short_input_behavior_witness :
    (spectrogram trivialExterns [List.replicate 10 (0 : ℝ)]
        { channel := 0, frame_length := 10, frame_shift := 5, sample_frequency := 1000,
          min_duration := 1 } = .ok emptyFeats ∧
      fbank trivialExterns [List.replicate 10 (0 : ℝ)]
        { channel := 0, frame_length := 10, frame_shift := 5, sample_frequency := 1000,
          min_duration := 1 } {} = .ok emptyFeats) ∧
    (spectrogram trivialExterns [[(0 : ℝ), 0, 0, 0]]
        { channel := 0, frame_length := 10, frame_shift := 5, sample_frequency := 1000 } =
        .error "choose a window size in bounds" ∧
      fbank trivialExterns [[(0 : ℝ), 0, 0, 0]]
        { channel := 0, frame_length := 10, frame_shift := 5, sample_frequency := 1000 } {} =
        .error "choose a window size in bounds") := by
  have hws : windowSizeOf 1000 10 = 10 := by norm_num [windowSizeOf, truncQ]
  have hsh : windowShiftOf 1000 5 = 5 := by norm_num [windowShiftOf, truncQ]
  have h9 : Nat.size 9 = 4 :=
    le_antisymm (Nat.size_le.2 (by norm_num)) (Nat.lt_size.2 (by norm_num))
  constructor
  · exact (short_input_behavior trivialExterns [List.replicate 10 (0 : ℝ)]
      { channel := 0, frame_length := 10, frame_shift := 5, sample_frequency := 1000,
        min_duration := 1 } {}).1 (List.replicate 10 (0 : ℝ)) 5 10 16
      (by
        unfold _get_waveform_and_window_properties
        rw [hws, hsh]
        norm_num [paddedWindowSizeOf, _next_power_of_2, h9])
      (by norm_num)
  · exact (short_input_behavior trivialExterns [[(0 : ℝ), 0, 0, 0]]
      { channel := 0, frame_length := 10, frame_shift := 5, sample_frequency := 1000 } {}).2
      (by decide) (by rw [hws]; decide)

/-- C5: with `snip_edges = false` the framer produces
`(n + window_shift/2) / window_shift` frames by striding over the extended
waveform; with `pad = window_size/2 - window_shift/2`, the extension prepends
the last `pad` samples of the reversed signal and appends the full reversed
signal when `pad > 0` (entries: mirrored head, original body, mirrored
tail), and drops `-pad` samples from the front before appending the
reversed signal when `pad ≤ 0`. -/
theorem framer_reflect_edges (w : List ℝ) (ws shift : ℕ) :
    (_get_strided w ws shift false).length = (w.length + shift / 2) / shift ∧
    (∀ i < (w.length + shift / 2) / shift,
      (_get_strided w ws shift false).getD i [] =
        ((extendedWaveform w ws shift).drop (i * shift)).take ws) ∧
    (0 < framePad ws shift → (framePad ws shift).toNat ≤ w.length →
      (extendedWaveform w ws shift).length = (framePad ws shift).toNat + 2 * w.length ∧
      (∀ k < (framePad ws shift).toNat,
        (extendedWaveform w ws shift).getD k 0 =
          w.getD ((framePad ws shift).toNat - 1 - k) 0) ∧
      (∀ k, (framePad ws shift).toNat ≤ k → k < (framePad ws shift).toNat + w.length →
        (extendedWaveform w ws shift).getD k 0 = w.getD (k - (framePad ws shift).toNat) 0) ∧
      (∀ k, (framePad ws shift).toNat + w.length ≤ k →
        k < (framePad ws shift).toNat + 2 * w.length →
        (extendedWaveform w ws shift).getD k 0 =
          w.getD (2 * w.length + (framePad ws shift).toNat - 1 - k) 0)) ∧
    (framePad ws shift ≤ 0 → (-framePad ws shift).toNat ≤ w.length →
      (extendedWaveform w ws shift).length =
        (w.length - (-framePad ws shift).toNat) + w.length ∧
      (∀ k < w.length - (-framePad ws shift).toNat,
        (extendedWaveform w ws shift).getD k 0 = w.getD (k + (-framePad ws shift).toNat) 0) ∧
      (∀ k, w.length - (-framePad ws shift).toNat ≤ k →
        k < (w.length - (-framePad ws shift).toNat) + w.length →
        (extendedWaveform w ws shift).getD k 0 =
          w.getD (w.length - 1 - (k - (w.length - (-framePad ws shift).toNat))) 0)) := by
  refine ⟨?_, ?_, ?_, ?_⟩
  · simp [_get_strided]
  · intro i hi
    rw [List.getD_eq_getElem?_getD]
    simp [_get_strided, List.getElem?_map, List.getElem?_range, hi]
  · intro hp hle
    have hext : extendedWaveform w ws shift =
        (w.reverse.drop (w.reverse.length - (framePad ws shift).toNat)) ++ w ++ w.reverse := by
      unfold extendedWaveform framePad
      rw [if_pos (by unfold framePad at hp; exact hp)]
    have hA : (w.reverse.drop (w.reverse.length - (framePad ws shift).toNat)).length
        = (framePad ws shift).toNat := by
      rw [List.length_drop, List.length_reverse]
      omega
    refine ⟨?_, ?_, ?_, ?_⟩
    · rw [hext, List.length_append, List.length_append, hA, List.length_reverse]
      omega
    · intro k hk
      rw [hext, List.getD_eq_getElem?_getD, List.append_assoc, List.getElem?_append,
        if_pos (by rw [hA]; exact hk), List.getElem?_drop,
        List.getElem?_reverse (by rw [List.length_reverse]; omega),
        List.length_reverse, List.getD_eq_getElem?_getD]
      have hidx : w.length - 1 - (w.length - (framePad ws shift).toNat + k) =
          (framePad ws shift).toNat - 1 - k := by omega
      rw [hidx]
    · intro k hk1 hk2
      have hkA : ¬ k <
          (w.reverse.drop (w.reverse.length - (framePad ws shift).toNat)).length := by
        rw [hA]
        omega
      rw [hext, List.getD_eq_getElem?_getD, List.append_assoc, List.getElem?_append,
        if_neg hkA, hA, List.getElem?_append, if_pos (by omega),
        List.getD_eq_getElem?_getD]
    · intro k hk1 hk2
      have hkA : ¬ k <
          (w.reverse.drop (w.reverse.length - (framePad ws shift).toNat)).length := by
        rw [hA]
        omega
      rw [hext, List.getD_eq_getElem?_getD, List.append_assoc, List.getElem?_append,
        if_neg hkA, hA, List.getElem?_append, if_neg (by omega),
        List.getElem?_reverse (by omega), List.getD_eq_getElem?_getD]
      have hidx : w.length - 1 - (k - (framePad ws shift).toNat - w.length) =
          2 * w.length + (framePad ws shift).toNat - 1 - k := by omega
      rw [hidx]
  · intro hp hle
    have hext : extendedWaveform w ws shift =
        (w.drop (-framePad ws shift).toNat) ++ w.reverse := by
      unfold extendedWaveform framePad
      rw [if_neg (by unfold framePad at hp; omega)]
    have hA : (w.drop (-framePad ws shift).toNat).length =
        w.length - (-framePad ws shift).toNat := by
      rw [List.length_drop]
    refine ⟨?_, ?_, ?_⟩
    · rw [hext, List.length_append, hA, List.length_reverse]
    · intro k hk
      rw [hext, List.getD_eq_getElem?_getD, List.getElem?_append,
        if_pos (by rw [hA]; exact hk), List.getElem?_drop, List.getD_eq_getElem?_getD]
      have hidx : (-framePad ws shift).toNat + k = k + (-framePad ws shift).toNat := by
        omega
      rw [hidx]
    · intro k hk1 hk2
      have hkA : ¬ k < (w.drop (-framePad ws shift).toNat).length := by
        rw [hA]
        omega
      rw [hext, List.getD_eq_getElem?_getD, List.getElem?_append, if_neg hkA, hA,
        List.getElem?_reverse (by omega), List.getD_eq_getElem?_getD]

/-- Witness for C5 on concrete inputs covering both signs of the pad. -/
theorem framer_reflect_edges_witness :
    (0 < framePad 4 2 ∧ (framePad 4 2).toNat ≤ 4 ∧
      (extendedWaveform [(1 : ℝ), 2, 3, 4] 4 2).length = (framePad 4 2).toNat + 2 * 4) ∧
    (framePad 2 4 ≤ 0 ∧ (-framePad 2 4).toNat ≤ 2 ∧
      (extendedWaveform [(1 : ℝ), 2] 2 4).length = (2 - (-framePad 2 4).toNat) + 2) :=
  ⟨⟨by decide, by decide,
    ((framer_reflect_edges [(1 : ℝ), 2, 3, 4] 4 2).2.2.1 (by decide) (by decide)).1⟩,
   ⟨by decide, by decide,
    ((framer_reflect_edges [(1 : ℝ), 2] 2 4).2.2.2 (by decide) (by decide)).1⟩⟩

/-- Pointwise non-negativity of the mel filterbank weights, for every
configuration and any warp factor: the unwarped branch clamps at zero, and
the warped branches only assign a slope on the region where it is positive. -/
theorem melBanksBins_nonneg (a : MelArgs) (i j : ℕ) : 0 ≤ melBanksBins a i j := by
  rw [melBanksBins]
  split_ifs with h1 h2 h3
  · exact le_max_left 0 _
  · exact div_nonneg (by linarith [h2.1, h2.2]) (by linarith [h2.1, h2.2])
  · exact div_nonneg (by linarith [h3.1, h3.2]) (by linarith [h3.1, h3.2])
  · exact le_refl 0

/-- C7: with `vtln_warp_factor = 1` and a valid frequency range every mel
filterbank weight lies in `[0, 1]` (each weight is
`max(0, min(up_slope, down_slope))` over strictly increasing
left < center < right mel boundaries), and for every configuration each row
sum over the `padded_window_size / 2` FFT bins is non-negative (finiteness is
automatic in the real-number model). -/
theorem mel_banks_weights_range (a : MelArgs) :
    (a.vtln_warp_factor = 1 → 0 ≤ a.low_freq → a.low_freq < adjustedHighFreq a →
      ∀ i j, 0 ≤ melBanksBins a i j ∧ melBanksBins a i j ≤ 1) ∧
    (∀ i, 0 ≤ ∑ j ∈ Finset.range (a.window_length_padded / 2), melBanksBins a i j) := by
  constructor
  · intro hw hlow hlt i j
    refine ⟨melBanksBins_nonneg a i j, ?_⟩
    have hwid : ∀ x, warpMelIf a x = x := fun x => by
      rw [warpMelIf, if_neg (not_not_intro hw)]
    have hmel : mel_scale_scalar a.low_freq < mel_scale_scalar (adjustedHighFreq a) := by
      rw [mel_scale_scalar, mel_scale_scalar]
      have h1 : (0 : ℝ) < 1 + a.low_freq / 700 := by positivity
      have h2 : 1 + a.low_freq / 700 < 1 + adjustedHighFreq a / 700 := by linarith
      have := Real.log_lt_log h1 h2
      linarith
    have hdelta : 0 < melFreqDelta a := by
      rw [melFreqDelta]
      have hb : (0 : ℝ) < (a.num_bins : ℝ) + 1 := by positivity
      exact div_pos (sub_pos.2 hmel) hb
    have hcl : centerMel a i - leftMel a i = melFreqDelta a := by
      rw [centerMel, leftMel, hwid, hwid]
      ring
    have hrc : rightMel a i - centerMel a i = melFreqDelta a := by
      rw [rightMel, centerMel, hwid, hwid]
      ring
    rw [melBanksBins]
    rw [if_pos hw]
    refine max_le zero_le_one ?_
    by_cases hm : melBinOf a j ≤ centerMel a i
    · refine le_trans (min_le_left _ _) ?_
      rw [div_le_one (by rw [hcl]; exact hdelta)]
      exact sub_le_sub_right hm _
    · refine le_trans (min_le_right _ _) ?_
      rw [div_le_one (by rw [hrc]; exact hdelta)]
      exact sub_le_sub_left (le_of_lt (not_le.1 hm)) _
  · intro i
    exact Finset.sum_nonneg fun j _ => melBanksBins_nonneg a i j

/-- Witness for C7 at a concrete valid configuration (4 mel bins, padded
window 8, 16 Hz sampling, warp 1). -/
theorem mel_banks_weights_range_witness :
    ((⟨4, 8, 16, 0, 0, 100, -500, 1⟩ : MelArgs).vtln_warp_factor = 1 ∧
      (0 : ℝ) ≤ (⟨4, 8, 16, 0, 0, 100, -500, 1⟩ : MelArgs).low_freq ∧
      (⟨4, 8, 16, 0, 0, 100, -500, 1⟩ : MelArgs).low_freq <
        adjustedHighFreq ⟨4, 8, 16, 0, 0, 100, -500, 1⟩ ∧
      0 ≤ melBanksBins ⟨4, 8, 16, 0, 0, 100, -500, 1⟩ 0 0 ∧
      melBanksBins ⟨4, 8, 16, 0, 0, 100, -500, 1⟩ 0 0 ≤ 1) ∧
    0 ≤ ∑ j ∈ Finset.range ((⟨4, 8, 16, 0, 0, 100, -500, 1⟩ : MelArgs).window_length_padded / 2),
      melBanksBins ⟨4, 8, 16, 0, 0, 100, -500, 1⟩ 0 j := by
  have hhigh : (⟨4, 8, 16, 0, 0, 100, -500, 1⟩ : MelArgs).low_freq <
      adjustedHighFreq ⟨4, 8, 16, 0, 0, 100, -500, 1⟩ := by
    rw [adjustedHighFreq]
    norm_num
  refine ⟨⟨rfl, le_refl 0, hhigh, ?_, ?_⟩, ?_⟩
  · exact ((mel_banks_weights_range ⟨4, 8, 16, 0, 0, 100, -500, 1⟩).1 rfl (le_refl 0)
      hhigh 0 0).1
  · exact ((mel_banks_weights_range ⟨4, 8, 16, 0, 0, 100, -500, 1⟩).1 rfl (le_refl 0)
      hhigh 0 0).2
  · exact (mel_banks_weights_range ⟨4, 8, 16, 0, 0, 100, -500, 1⟩).2 0

/-- After GCD reduction of equal frequencies the kernel half width is
`ceil(6 / 0.99) = 7`. -/
theorem resampleWidth_one : resampleWidth 1 1 6 = 7 := by
  rw [resampleWidth]
  norm_num
  have h7 : ⌈(200 / 33 : ℚ)⌉ = (7 : ℤ) := by
    rw [Int.ceil_eq_iff]
    norm_num
  rw [h7]
  rfl

/-- The center tap of the reduced kernel is exactly `0.99` (the anti-aliasing
scale), not 1. -/
theorem resampleKernel_center : resampleKernel 1 1 6 0 7 = 0.99 := by
  rw [resampleKernel, resampleWidth_one]
  norm_num [min_def, max_def, Real.cos_zero]

/-- Off-center positions of a one-sample padded channel are zero. -/
theorem paddedEntry_single (x : ℝ) (k : ℕ) (hk : k ≠ 7) : paddedEntry [x] 7 k = 0 := by
  rw [paddedEntry, List.length_singleton]
  split_ifs with h1 h2
  · rfl
  · exact absurd (by omega : k = 7) hk
  · rfl

/-- The single convolution output of a one-sample channel at equal reduced
frequencies picks out the center tap. -/
theorem convAt_single (x : ℝ) : convAt 1 1 6 [x] 0 0 = 0.99 * x := by
  rw [convAt, resampleWidth_one]
  rw [Finset.sum_eq_single 7]
  · rw [resampleKernel_center]
    norm_num [paddedEntry]
  · intro b _ hb
    rw [show 0 * 1 + b = b from by omega, paddedEntry_single x b hb, mul_zero]
  · intro h
    exact absurd (by norm_num : 7 ∈ Finset.range (2 * 7 + 1)) h

/-- One-sample channels are scaled by `0.99` when the reduced frequencies are
equal. -/
theorem resampleChannel_single (x : ℝ) : resampleChannel 1 1 6 [x] = [0.99 * x] := by
  rw [resampleChannel]
  norm_num [List.range_succ, convAt_single]

/-- The output of `resampleChannel` at equal reduced frequencies has the
declared target length, which equals the input length. -/
theorem resampleChannel_equal_freq_length (y : List ℝ) :
    (resampleChannel 1 1 6 y).length = y.length := by
  rw [resampleChannel]
  rw [List.length_take, List.length_map, List.length_range]
  norm_num

/-- Equal original and new frequencies reduce to one phase and scale a
one-sample waveform by `0.99`. -/
theorem resample_waveform_single (x : ℝ) (f : ℕ) (hf : 0 < f) :
    resample_waveform [[x]] (f : ℚ) (f : ℚ) 6 = .ok [[0.99 * x]] := by
  have hfq : (0 : ℚ) < (f : ℚ) := by exact_mod_cast hf
  rw [resample_waveform, if_neg (not_not_intro ⟨hfq, hfq⟩)]
  have htr : (truncQ (f : ℚ)).toNat = f := by
    rw [truncQ, if_pos (le_of_lt hfq), Int.floor_natCast]
    exact Int.toNat_natCast f
  rw [htr]
  dsimp only
  rw [Nat.gcd_self, Nat.div_self hf]
  rw [List.map_cons, List.map_nil, resampleChannel_single]

/-- C1 counterexample: `resample_waveform` with `orig_freq == new_freq` is
not the identity up to the target length: the one-sample waveform `[[1]]`
comes back as `[[0.99]]` because the anti-aliasing factor `0.99` scales the
kernel's center tap. -/
theorem resample_identity_counterexample :
    resample_waveform [[(1 : ℝ)]] 1 1 6 ≠ .ok [[(1 : ℝ)]] := by
  intro hcontra
  have h1 := resample_waveform_single 1 1 Nat.one_pos
  rw [Nat.cast_one] at h1
  rw [h1] at hcontra
  simp only [Except.ok.injEq, List.cons.injEq, and_true] at hcontra
  norm_num at hcontra

/-- C1 (amended): with `orig_freq == new_freq` the GCD reduction gives one
phase and the output is truncated to the declared target length (equal to
the input length), but the call is not an exact identity: the kernel is a
genuine low-pass (base frequency scaled by 0.99) whose center tap is `0.99`,
so a one-sample waveform `[[x]]` returns `[[0.99 * x]]`. -/
theorem resample_equal_freq_behavior (x : ℝ) (f : ℕ) (hf : 0 < f) :
    resample_waveform [[x]] (f : ℚ) (f : ℚ) 6 = .ok [[0.99 * x]] ∧
    ∀ y : List ℝ, (resampleChannel 1 1 6 y).length = y.length :=
  ⟨resample_waveform_single x f hf, resampleChannel_equal_freq_length⟩

/-- Witness for C1 (amended) at `x = 2`, `f = 1`. -/
theorem resample_equal_freq_behavior_witness :
    0 < 1 ∧ resample_waveform [[(2 : ℝ)]] ((1 : ℕ) : ℚ) ((1 : ℕ) : ℚ) 6 =
      .ok [[0.99 * 2]] :=
  ⟨Nat.one_pos, (resample_equal_freq_behavior 2 1 Nat.one_pos).1⟩

/-- On the middle region `l ≤ f ≤ h` the warp equals `f / warp` exactly (for
`f = h` the right-linear piece is evaluated and simplifies to the same
value). -/
theorem vtln_warp_freq_mid (vl vh lo hi w : ℝ) (hw : 0 < w)
    (hL : lo < vl * max 1 w) (hH : vh * min 1 w < hi) (f : ℝ)
    (h1 : vl * max 1 w ≤ f) (h2 : f ≤ vh * min 1 w) :
    vtln_warp_freq vl vh lo hi w f = f / w := by
  rw [vtln_warp_freq]
  split_ifs with h3 h4 h5
  · rcases h3 with h3 | h3 <;> linarith
  · linarith
  · ring
  · have hf : f = vh * min 1 w := le_antisymm h2 (not_lt.1 h5)
    have hne : hi - vh * min 1 w ≠ 0 := by linarith
    subst hf
    field_simp
    ring

/-- C6 counterexample: the configuration `vtln_low = 100`, `vtln_high = 50`,
`low_freq = 0`, `high_freq = 100`, `warp = 10` satisfies every assert of
`vtln_warp_freq` (`vtln_low > low_freq`, `vtln_high < high_freq`, positive
warp, `l > low_freq`, `h < high_freq`), yet `F(high_freq) = 10 ≠ high_freq`:
the warped lower inflection point `l = 1000` exceeds `high_freq`, so the
`before_l` mask overwrites the value at `high_freq`. -/
theorem vtln_warp_counterexample :
    (0 : ℝ) < 100 ∧ (50 : ℝ) < 100 ∧ (0 : ℝ) < 10 ∧
    (0 : ℝ) < 100 * max 1 10 ∧ 50 * min 1 10 < (100 : ℝ) ∧
    vtln_warp_freq 100 50 0 100 10 100 = 10 ∧ (10 : ℝ) ≠ 100 := by
  refine ⟨by norm_num, by norm_num, by norm_num, ?_, ?_, ?_, by norm_num⟩
  · rw [show max (1 : ℝ) 10 = 10 from max_eq_right (by norm_num)]
    norm_num
  · rw [show min (1 : ℝ) 10 = 1 from min_eq_left (by norm_num)]
    norm_num
  · rw [vtln_warp_freq]
    rw [show max (1 : ℝ) 10 = 10 from max_eq_right (by norm_num),
      show min (1 : ℝ) 10 = 1 from min_eq_left (by norm_num)]
    norm_num

/-- The warp is Lipschitz around any point of the middle region, with
constant `|scale_left| + |scale_right| + 1/warp`: each linear piece agrees
with the middle piece at its boundary, so the deviation is bounded by the
sum of the slopes times the distance. -/
theorem vtln_warp_freq_dist_le (vl vh lo hi w : ℝ) (hw : 0 < w)
    (hL : lo < vl * max 1 w) (hH : vh * min 1 w < hi) (p x : ℝ)
    (hp1 : vl * max 1 w ≤ p) (hp2 : p ≤ vh * min 1 w)
    (hx1 : lo < x) (hx2 : x < hi) :
    |vtln_warp_freq vl vh lo hi w x - vtln_warp_freq vl vh lo hi w p| ≤
      (|(1 / w * (vl * max 1 w) - lo) / (vl * max 1 w - lo)| +
        |(hi - 1 / w * (vh * min 1 w)) / (hi - vh * min 1 w)| + 1 / w) * |x - p| := by
  have hFp : vtln_warp_freq vl vh lo hi w p = p / w :=
    vtln_warp_freq_mid vl vh lo hi w hw hL hH p hp1 hp2
  set sL := (1 / w * (vl * max 1 w) - lo) / (vl * max 1 w - lo) with hsL
  set sR := (hi - 1 / w * (vh * min 1 w)) / (hi - vh * min 1 w) with hsR
  have hw' : (0 : ℝ) < 1 / w := by positivity
  rw [hFp, vtln_warp_freq]
  split_ifs with h3 h4 h5
  · rcases h3 with h3 | h3 <;> linarith
  · have hLlo : vl * max 1 w - lo ≠ 0 := by linarith
    have hsl : sL * (vl * max 1 w - lo) = 1 / w * (vl * max 1 w) - lo := by
      rw [hsL]
      exact div_mul_cancel₀ _ hLlo
    have hexp : lo + sL * (x - lo) - p / w =
        sL * (x - vl * max 1 w) + (vl * max 1 w - p) / w := by
      have hstep : lo + sL * (x - lo) =
          lo + sL * (vl * max 1 w - lo) + sL * (x - vl * max 1 w) := by ring
      rw [hstep, hsl]
      ring
    rw [hexp]
    have hbd1 : |x - vl * max 1 w| ≤ |x - p| := by
      rw [abs_of_nonpos (by linarith), abs_of_nonpos (by linarith)]
      linarith
    have hbd2 : |vl * max 1 w - p| ≤ |x - p| := by
      rw [abs_of_nonpos (by linarith), abs_of_nonpos (by linarith)]
      linarith
    calc |sL * (x - vl * max 1 w) + (vl * max 1 w - p) / w|
        ≤ |sL * (x - vl * max 1 w)| + |(vl * max 1 w - p) / w| := abs_add _ _
      _ = |sL| * |x - vl * max 1 w| + |vl * max 1 w - p| / w := by
          have habs : |(vl * max 1 w - p) / w| = |vl * max 1 w - p| / w := by
            rw [abs_div, abs_of_pos hw]
          rw [abs_mul, habs]
      _ ≤ |sL| * |x - p| + |x - p| / w := by
          have u1 := mul_le_mul_of_nonneg_left hbd1 (abs_nonneg sL)
          have u2 := (div_le_div_iff_of_pos_right hw).2 hbd2
          linarith
      _ ≤ (|sL| + |sR| + 1 / w) * |x - p| := by
          have hterm : |sL| * |x - p| + |x - p| / w = (|sL| + 1 / w) * |x - p| := by
            ring
          rw [hterm]
          exact mul_le_mul_of_nonneg_right (by linarith [abs_nonneg sR]) (abs_nonneg _)
  · have hexp : 1 / w * x - p / w = 1 / w * (x - p) := by ring
    rw [hexp, abs_mul, abs_of_pos hw']
    have : 1 / w * |x - p| ≤ (|sL| + |sR| + 1 / w) * |x - p| :=
      mul_le_mul_of_nonneg_right (by linarith [abs_nonneg sL, abs_nonneg sR]) (abs_nonneg _)
    linarith
  · have hHhi : hi - vh * min 1 w ≠ 0 := by linarith
    have hsr : sR * (hi - vh * min 1 w) = hi - 1 / w * (vh * min 1 w) := by
      rw [hsR]
      exact div_mul_cancel₀ _ hHhi
    have hxH : vh * min 1 w ≤ x := not_lt.1 h5
    have hexp : hi + sR * (x - hi) - p / w =
        sR * (x - vh * min 1 w) + (vh * min 1 w - p) / w := by
      have hstep : hi + sR * (x - hi) =
          hi - sR * (hi - vh * min 1 w) + sR * (x - vh * min 1 w) := by ring
      rw [hstep, hsr]
      ring
    rw [hexp]
    have hbd1 : |x - vh * min 1 w| ≤ |x - p| := by
      rw [abs_of_nonneg (by linarith), abs_of_nonneg (by linarith)]
      linarith
    have hbd2 : |vh * min 1 w - p| ≤ |x - p| := by
      rw [abs_of_nonneg (by linarith), abs_of_nonneg (by linarith)]
      linarith
    calc |sR * (x - vh * min 1 w) + (vh * min 1 w - p) / w|
        ≤ |sR * (x - vh * min 1 w)| + |(vh * min 1 w - p) / w| := abs_add _ _
      _ = |sR| * |x - vh * min 1 w| + |vh * min 1 w - p| / w := by
          have habs : |(vh * min 1 w - p) / w| = |vh * min 1 w - p| / w := by
            rw [abs_div, abs_of_pos hw]
          rw [abs_mul, habs]
      _ ≤ |sR| * |x - p| + |x - p| / w := by
          have u1 := mul_le_mul_of_nonneg_left hbd1 (abs_nonneg sR)
          have u2 := (div_le_div_iff_of_pos_right hw).2 hbd2
          linarith
      _ ≤ (|sL| + |sR| + 1 / w) * |x - p| := by
          have hterm : |sR| * |x - p| + |x - p| / w = (|sR| + 1 / w) * |x - p| := by
            ring
          rw [hterm]
          exact mul_le_mul_of_nonneg_right (by linarith [abs_nonneg sL]) (abs_nonneg _)

/-- Continuity of the warp at any point of the middle region `[l, h]` (in
particular at the two inflection points), provided the inflection points are
ordered and strictly bracketed by `low_freq` and `high_freq`. -/
theorem vtln_warp_freq_continuousAt (vl vh lo hi w : ℝ) (hw : 0 < w)
    (hL : lo < vl * max 1 w) (hH : vh * min 1 w < hi) (p : ℝ)
    (hp1 : vl * max 1 w ≤ p) (hp2 : p ≤ vh * min 1 w) :
    ContinuousAt (vtln_warp_freq vl vh lo hi w) p := by
  rw [Metric.continuousAt_iff]
  intro ε hε
  set Kp := |(1 / w * (vl * max 1 w) - lo) / (vl * max 1 w - lo)| +
    |(hi - 1 / w * (vh * min 1 w)) / (hi - vh * min 1 w)| + 1 / w with hKp
  have hKp0 : 0 < Kp := by
    have : (0 : ℝ) < 1 / w := by positivity
    have a1 := abs_nonneg ((1 / w * (vl * max 1 w) - lo) / (vl * max 1 w - lo))
    have a2 := abs_nonneg ((hi - 1 / w * (vh * min 1 w)) / (hi - vh * min 1 w))
    rw [hKp]
    linarith
  have hplo : 0 < p - lo := by linarith
  have hhip : 0 < hi - p := by linarith
  refine ⟨min (min (p - lo) (hi - p)) (ε / (Kp + 1)), ?_, ?_⟩
  · have hpos : 0 < ε / (Kp + 1) := by positivity
    exact lt_min (lt_min hplo hhip) hpos
  · intro x hx
    rw [Real.dist_eq] at hx ⊢
    have hx1 : lo < x := by
      have h1 := lt_of_lt_of_le hx (le_trans (min_le_left _ _) (min_le_left _ _))
      have h2 := (abs_lt.1 h1).1
      linarith
    have hx2 : x < hi := by
      have h1 := lt_of_lt_of_le hx (le_trans (min_le_left _ _) (min_le_right _ _))
      have h2 := (abs_lt.1 h1).2
      linarith
    have hxε : |x - p| ≤ ε / (Kp + 1) := le_of_lt (lt_of_lt_of_le hx (min_le_right _ _))
    have hkey := vtln_warp_freq_dist_le vl vh lo hi w hw hL hH p x hp1 hp2 hx1 hx2
    rw [← hKp] at hkey
    have hstep1 : Kp * |x - p| ≤ Kp * (ε / (Kp + 1)) :=
      mul_le_mul_of_nonneg_left hxε (le_of_lt hKp0)
    have hstep2 : Kp * (ε / (Kp + 1)) < (Kp + 1) * (ε / (Kp + 1)) := by
      have hpos : 0 < ε / (Kp + 1) := by positivity
      have : Kp < Kp + 1 := by linarith
      exact mul_lt_mul_of_pos_right this hpos
    have hstep3 : (Kp + 1) * (ε / (Kp + 1)) = ε :=
      mul_div_cancel₀ ε (by positivity)
    calc |vtln_warp_freq vl vh lo hi w x - vtln_warp_freq vl vh lo hi w p|
        ≤ Kp * |x - p| := hkey
      _ ≤ Kp * (ε / (Kp + 1)) := hstep1
      _ < ε := by
          calc Kp * (ε / (Kp + 1)) < (Kp + 1) * (ε / (Kp + 1)) := hstep2
            _ = ε := hstep3

/-- C6 (amended): for every configuration passing the asserts
(`l > low_freq`, `h < high_freq`, positive warp) whose inflection points are
additionally ordered (`l ≤ h` — which extreme warp factors can violate while
still passing the asserts), `vtln_warp_freq` fixes `low_freq` and
`high_freq` exactly, equals `f / warp` on `[l, h]`, is the identity outside
`[low_freq, high_freq]` (the outside mask is applied last and is never
overwritten), and is continuous at both inflection points. -/
theorem vtln_warp_amended (vl vh lo hi w : ℝ) (hw : 0 < w)
    (hL : lo < vl * max 1 w) (hH : vh * min 1 w < hi)
    (hLH : vl * max 1 w ≤ vh * min 1 w) :
    vtln_warp_freq vl vh lo hi w lo = lo ∧
    vtln_warp_freq vl vh lo hi w hi = hi ∧
    (∀ f, vl * max 1 w ≤ f → f ≤ vh * min 1 w →
      vtln_warp_freq vl vh lo hi w f = f / w) ∧
    (∀ f, f < lo ∨ hi < f → vtln_warp_freq vl vh lo hi w f = f) ∧
    ContinuousAt (vtln_warp_freq vl vh lo hi w) (vl * max 1 w) ∧
    ContinuousAt (vtln_warp_freq vl vh lo hi w) (vh * min 1 w) := by
  refine ⟨?_, ?_, fun f h1 h2 => vtln_warp_freq_mid vl vh lo hi w hw hL hH f h1 h2, ?_,
    vtln_warp_freq_continuousAt vl vh lo hi w hw hL hH _ (le_refl _) hLH,
    vtln_warp_freq_continuousAt vl vh lo hi w hw hL hH _ hLH (le_refl _)⟩
  · rw [vtln_warp_freq]
    split_ifs
    all_goals try rfl
    all_goals linarith
  · rw [vtln_warp_freq]
    split_ifs
    all_goals try rfl
    all_goals linarith
  · intro f hf
    rw [vtln_warp_freq, if_pos hf]

/-- Witness for C6 (amended) at the configuration `vtln_low = 100`,
`vtln_high = 200`, `low_freq = 50`, `high_freq = 500`, `warp = 1`. -/
theorem vtln_warp_amended_witness :
    ((0 : ℝ) < 1 ∧ (50 : ℝ) < 100 * max 1 1 ∧ (200 : ℝ) * min 1 1 < 500 ∧
      (100 : ℝ) * max 1 1 ≤ 200 * min 1 1) ∧
    vtln_warp_freq 100 200 50 500 1 50 = 50 :=
  ⟨⟨by norm_num, by norm_num, by norm_num, by norm_num⟩,
    (vtln_warp_amended 100 200 50 500 1 (by norm_num) (by norm_num) (by norm_num)
      (by norm_num)).1⟩

end Kaldi
